import Mathlib

/-!
Shallow embedding of the arbitrage detection core of the Fingent repository
(fingent/arb/strategy.py, fingent/arb/risk.py, fingent/arb/engine.py).

Modelling conventions:
* Python floats are modelled as rationals (`ℚ`); the source performs exact
  field arithmetic and comparisons on them.
* Python dicts keyed by strings are modelled as association lists together
  with `dictGet` (lookup) and `dictSet` (overwrite-or-append, mirroring
  `d[k] = v`).
* Timestamps are rational numbers of seconds since the epoch;
  `datetime.now(timezone.utc)` / `time.time()` become explicit `now`
  parameters threaded from the caller.  ISO timestamp strings that are later
  parsed back with `fromisoformat` are modelled as `Option ℚ` (`none` models
  a malformed string, which the source handles via fallback paths).
* Provider calls are oracles supplied in an `EngineCtx`; a call that can
  raise is modelled as `Except String α` carrying the exception message.
* Python's stable `list.sort(key=...)` is modelled by the stable
  `List.insertionSort`.
* Risk flags are Python format strings such as `LOW_VOLUME:{id}:{v:.0f}`;
  they are modelled as an inductive type carrying the same data.
* `uuid.uuid4()` (used only for the opportunity id) is modelled as an
  explicit id parameter; the orchestrator passes the event id as seed.
-/

namespace Fingent

/-- Python dict lookup `d.get(k)` on an association list. -/
def dictGet {β : Type} (k : String) : List (String × β) → Option β
  | [] => none
  | (k', v) :: rest => if k' = k then some v else dictGet k rest

/-- Python dict assignment `d[k] = v`: overwrite the existing binding or
append a new one. -/
def dictSet {β : Type} (k : String) (v : β) : List (String × β) → List (String × β)
  | [] => [(k, v)]
  | (k', v') :: rest => if k' = k then (k, v) :: rest else (k', v') :: dictSet k v rest

/-! Data model.  The dataclasses `PolymarketMarket`, `PolymarketQuote`,
`ArbSnapshot`, `ArbOpportunityLeg` and `ArbOpportunity` are imported by the
arb modules from `fingent.domain.models`; their class bodies are not part of
the sources, so the fields are taken from the spec's data-model section and
from every use in strategy.py / risk.py / engine.py. -/

/-- Market metadata (spec section 3 and all field accesses in the source:
`market_id`, `event_id`, `question`, `tenor_days`, `active`). -/
structure PolymarketMarket where
  market_id : String
  event_id : String
  question : String
  tenor_days : ℚ
  active : Bool
deriving DecidableEq

/-- Point-in-time quote (spec section 3 and all field accesses in the
source: `mid`, `spread_bps`, `depth_bid`, `depth_ask`, `volume_24h`).
`volume_24h` is optional: risk.py explicitly tests `is not None` on it. -/
structure PolymarketQuote where
  mid : ℚ
  spread_bps : ℚ
  depth_bid : ℚ
  depth_ask : ℚ
  volume_24h : Option ℚ
deriving DecidableEq

/-- First-observation snapshot of a market (spec section 3; constructed in
`ArbEngine.create_snapshots`).  `first_seen_ts` is stored as an ISO string
in the source and parsed back with `fromisoformat`; it is modelled as the
parse result (`none` = malformed). -/
structure ArbSnapshot where
  market_id : String
  news_id : String
  first_seen_ts : Option ℚ
  p0 : ℚ
  quote0 : PolymarketQuote
  volume0 : Option ℚ
deriving DecidableEq

/-- One leg of an opportunity (strategy.py builds exactly these fields). -/
structure ArbOpportunityLeg where
  market_id : String
  question : String
  tenor_days : ℚ
  side : String
  current_mid : ℚ
  delta : ℚ
deriving DecidableEq

/-- Risk flags.  The source appends Python format strings; each constructor
carries the same data as the corresponding format string in risk.py. -/
inductive RiskFlag where
  | MISSING_QUOTE (market_id : String)
  | LOW_VOLUME (market_id : String) (volume : ℚ)
  | WIDE_SPREAD (market_id : String) (spread : ℚ)
  | LOW_DEPTH (market_id : String) (depth : ℚ)
  | TOO_CLOSE_TO_SETTLE (market_id : String) (tenor_days : ℚ)
  | COOLDOWN (event_id : String) (remaining : ℚ)
deriving DecidableEq

/-- Audit record built in step 10 of `TermStructureStrategy.evaluate`. -/
structure ArbEvidence where
  trigger_ts : Option ℚ
  window_elapsed_min : ℚ
  short_p0 : ℚ
  long_p0 : ℚ
  short_quote : PolymarketQuote
  long_quote : PolymarketQuote
  delta_short : ℚ
  delta_long : ℚ
  estimated_costs : ℚ
deriving DecidableEq

/-- Candidate opportunity (spec section 3; built in strategy.py, mutated by
risk.py and engine.py).  `status` is one of the literal strings
`CANDIDATE`, `CONFIRMED`, `FILTERED` exactly as in the source. -/
structure ArbOpportunity where
  id : String
  timestamp : ℚ
  type : String
  event_id : String
  legs : List ArbOpportunityLeg
  delta_diff : ℚ
  edge : ℚ
  confidence : ℚ
  evidence : ArbEvidence
  risk_flags : List RiskFlag
  status : String
deriving DecidableEq

/-! Term-structure strategy (fingent/arb/strategy.py). -/

/-- Configuration read in `TermStructureStrategy.__init__` from the
`term_structure` section (defaults 0.05 / 120 / 10). -/
structure TSConfig where
  delta_threshold : ℚ
  trigger_window_minutes : ℚ
  max_markets_per_event : Nat
deriving DecidableEq

/-- `estimate_costs` from strategy.py: average the two spreads, convert bps
to probability units, and double the estimate when the minimum depth over
both legs' bid and ask sides is below $500. -/
def estimate_costs (quote_short quote_long : PolymarketQuote) : ℚ :=
  let avg_spread_bps := (quote_short.spread_bps + quote_long.spread_bps) / 2
  let cost := avg_spread_bps / 10000
  let min_depth := min quote_short.depth_bid (min quote_short.depth_ask
    (min quote_long.depth_bid quote_long.depth_ask))
  if min_depth < 500 then cost * 2 else cost

/-- `confidence_from_liquidity` from strategy.py: mean of a volume factor,
a bid-depth factor and a spread factor.  `volume_24h or 0` maps `None` to
`0`; the `factors` list always has exactly three entries, so the final
`if factors else 0.0` guard of the source is dead code. -/
def confidence_from_liquidity (quote_short quote_long : PolymarketQuote) : ℚ :=
  let vol_s := quote_short.volume_24h.getD 0
  let vol_l := quote_long.volume_24h.getD 0
  let min_vol := min vol_s vol_l
  let vol_score := min (min_vol / 10000) 1
  let min_depth := min quote_short.depth_bid quote_long.depth_bid
  let depth_score := min (min_depth / 2000) 1
  let max_spread := max quote_short.spread_bps quote_long.spread_bps
  let spread_score := max 0 (1 - max_spread / 300)
  (vol_score + depth_score + spread_score) / 3

/-- Ordering used by `active.sort(key=lambda x: x.tenor_days)`. -/
def tenorLE (a b : PolymarketMarket) : Prop := a.tenor_days ≤ b.tenor_days

instance : DecidableRel tenorLE := fun a b =>
  inferInstanceAs (Decidable (a.tenor_days ≤ b.tenor_days))

instance : IsTotal PolymarketMarket tenorLE :=
  ⟨fun a b => le_total a.tenor_days b.tenor_days⟩

instance : IsTrans PolymarketMarket tenorLE :=
  ⟨fun _ _ _ h h' => le_trans h h'⟩

/-- Step 1 of `evaluate`: markets that are active and have both a current
quote and a snapshot. -/
def eligibleMarkets (markets : List PolymarketMarket)
    (quotes : List (String × PolymarketQuote))
    (snapshots : List (String × ArbSnapshot)) : List PolymarketMarket :=
  markets.filter fun m =>
    m.active && (dictGet m.market_id quotes).isSome
      && (dictGet m.market_id snapshots).isSome

/-- Steps 2-3 of `evaluate`: stable sort ascending by `tenor_days`, then
truncate to the configured `max_markets_per_event`. -/
def selectedMarkets (cfg : TSConfig) (markets : List PolymarketMarket)
    (quotes : List (String × PolymarketQuote))
    (snapshots : List (String × ArbSnapshot)) : List PolymarketMarket :=
  (List.insertionSort tenorLE (eligibleMarkets markets quotes snapshots)).take
    cfg.max_markets_per_event

/-- `TermStructureStrategy.evaluate` from strategy.py.  `now` models
`datetime.now(timezone.utc)`, `oid` models `str(uuid.uuid4())`.  The source
indexes `active[0]` / `active[-1]` unconditionally after the length-2 check;
the `Option` matches below can only miss when `max_markets_per_event = 0`,
where the source would raise an IndexError (caught, where it matters, at the
pipeline boundary). -/
def TermStructureStrategy.evaluate (cfg : TSConfig) (now : ℚ) (oid : String)
    (event_id : String) (markets : List PolymarketMarket)
    (quotes : List (String × PolymarketQuote))
    (snapshots : List (String × ArbSnapshot))
    (trigger_ts : Option ℚ) : Option ArbOpportunity :=
  if (eligibleMarkets markets quotes snapshots).length < 2 then none
  else
    let active := selectedMarkets cfg markets quotes snapshots
    match active.head?, active.getLast? with
    | some short, some long =>
      match dictGet short.market_id snapshots, dictGet long.market_id snapshots with
      | some snap_s, some snap_l =>
        let first_seen :=
          match trigger_ts with
          | some t => t
          | none =>
            match snap_s.first_seen_ts with
            | some t => t
            | none => now
        let window_elapsed := (now - first_seen) / 60
        if window_elapsed > cfg.trigger_window_minutes then none
        else
          match dictGet short.market_id quotes, dictGet long.market_id quotes with
          | some quote_s, some quote_l =>
            let delta_s := quote_s.mid - snap_s.p0
            let delta_l := quote_l.mid - snap_l.p0
            let delta_diff := |delta_s - delta_l|
            if delta_diff < cfg.delta_threshold then none
            else
              let costs := estimate_costs quote_s quote_l
              let edge := delta_diff - costs
              if edge ≤ 0 then none
              else
                some
                  { id := oid
                    timestamp := now
                    type := "TERM_STRUCTURE"
                    event_id := event_id
                    legs :=
                      [{ market_id := short.market_id
                         question := short.question
                         tenor_days := short.tenor_days
                         side := "SHORT_LEG"
                         current_mid := quote_s.mid
                         delta := delta_s },
                       { market_id := long.market_id
                         question := long.question
                         tenor_days := long.tenor_days
                         side := "LONG_LEG"
                         current_mid := quote_l.mid
                         delta := delta_l }]
                    delta_diff := delta_diff
                    edge := edge
                    confidence := confidence_from_liquidity quote_s quote_l
                    evidence :=
                      { trigger_ts := trigger_ts
                        window_elapsed_min := window_elapsed
                        short_p0 := snap_s.p0
                        long_p0 := snap_l.p0
                        short_quote := quote_s
                        long_quote := quote_l
                        delta_short := delta_s
                        delta_long := delta_l
                        estimated_costs := costs }
                    risk_flags := []
                    status := "CANDIDATE" }
          | _, _ => none
      | _, _ => none
    | _, _ => none

/-! Risk manager (fingent/arb/risk.py). -/

/-- Configuration read in `RiskManager.__init__` (defaults 5000 / 300 /
1000 / 12 / 900). -/
structure RiskConfig where
  min_volume_24h : ℚ
  max_spread_bps : ℚ
  min_depth_usd : ℚ
  min_time_to_settle_hours : ℚ
  cooldown_seconds : ℚ
deriving DecidableEq

/-- Flags contributed by one iteration of the per-leg loop of
`RiskManager.filter`, in source order: missing quote, volume (hard), spread
(hard), depth (soft), time-to-settle (hard).  The loop only ever appends
flags to its accumulator, so the final `flags` list is the concatenation of
the per-leg contributions. -/
def legFlags (cfg : RiskConfig) (quotes : List (String × PolymarketQuote))
    (markets : Option (List (String × PolymarketMarket)))
    (leg : ArbOpportunityLeg) : List RiskFlag :=
  match dictGet leg.market_id quotes with
  | none => [RiskFlag.MISSING_QUOTE leg.market_id]
  | some quote =>
    (match quote.volume_24h with
     | some v =>
       if v < cfg.min_volume_24h then [RiskFlag.LOW_VOLUME leg.market_id v] else []
     | none => []) ++
    (if quote.spread_bps > cfg.max_spread_bps then
       [RiskFlag.WIDE_SPREAD leg.market_id quote.spread_bps] else []) ++
    (if min quote.depth_bid quote.depth_ask < cfg.min_depth_usd then
       [RiskFlag.LOW_DEPTH leg.market_id (min quote.depth_bid quote.depth_ask)]
     else []) ++
    (match markets with
     | some mks =>
       match dictGet leg.market_id mks with
       | some market =>
         if market.tenor_days * 24 < cfg.min_time_to_settle_hours then
           [RiskFlag.TOO_CLOSE_TO_SETTLE leg.market_id market.tenor_days]
         else []
       | none => []
     | none => [])

/-- Whether one iteration of the per-leg loop sets `hard_fail`: missing
quote, numeric volume below the floor, spread above the cap, or (when
market metadata was supplied) tenor too close to settlement.  The depth
check is soft and does not appear here.  The loop only ever raises
`hard_fail`, so the flag after the loop is the disjunction over legs. -/
def legHard (cfg : RiskConfig) (quotes : List (String × PolymarketQuote))
    (markets : Option (List (String × PolymarketMarket)))
    (leg : ArbOpportunityLeg) : Bool :=
  match dictGet leg.market_id quotes with
  | none => true
  | some quote =>
    (match quote.volume_24h with
     | some v => decide (v < cfg.min_volume_24h)
     | none => false) ||
    decide (quote.spread_bps > cfg.max_spread_bps) ||
    (match markets with
     | some mks =>
       match dictGet leg.market_id mks with
       | some market => decide (market.tenor_days * 24 < cfg.min_time_to_settle_hours)
       | none => false
     | none => false)

/-- `RiskManager.filter` from risk.py.  `now` models `time.time()` and
`last_alert` the `_last_alert` dict owned by the risk manager; the function
returns the updated opportunity together with the updated `_last_alert`
state.  A missing `markets` argument (Python `None`, or an empty dict which
is equally falsy and looks up nothing) is `none`.  The per-leg loop is
rendered through `legFlags` (its appended flags) and `legHard` (its
`hard_fail` contribution). -/
def RiskManager.filter (cfg : RiskConfig) (now : ℚ)
    (last_alert : List (String × ℚ)) (opportunity : ArbOpportunity)
    (quotes : List (String × PolymarketQuote))
    (markets : Option (List (String × PolymarketMarket))) :
    ArbOpportunity × List (String × ℚ) :=
  let leg_flags := (opportunity.legs.map (legFlags cfg quotes markets)).flatten
  let leg_hard := opportunity.legs.any (legHard cfg quotes markets)
  let last := (dictGet opportunity.event_id last_alert).getD 0
  let cooldownHit := decide (now - last < cfg.cooldown_seconds)
  let flags :=
    if cooldownHit then
      leg_flags ++ [RiskFlag.COOLDOWN opportunity.event_id
        (cfg.cooldown_seconds - (now - last))]
    else leg_flags
  let hard_fail := leg_hard || cooldownHit
  let status := if hard_fail then "FILTERED" else "CANDIDATE"
  let opp := { opportunity with risk_flags := flags, status := status }
  let last_alert' :=
    if status = "CANDIDATE" then dictSet opportunity.event_id now last_alert
    else last_alert
  (opp, last_alert')

/-- `RiskManager.get_cooldown_remaining` from risk.py. -/
def RiskManager.get_cooldown_remaining (cfg : RiskConfig) (now : ℚ)
    (last_alert : List (String × ℚ)) (event_id : String) : ℚ :=
  let last := (dictGet event_id last_alert).getD 0
  max 0 (cfg.cooldown_seconds - (now - last))

/-! Engine orchestrator (fingent/arb/engine.py). -/

/-- News article (`fingent.domain.models.NewsItem`); only the fields read
by the arb pipeline (`title`, `summary`, `url`) are modelled, the sentiment
and ticker fields are never touched by it. -/
structure NewsItem where
  title : String
  summary : String
  url : String
deriving DecidableEq

/-- The engine's constructor-time environment: configuration plus the
external collaborators.  `check_news_trigger` abstracts the compiled
case-insensitive regex patterns (a pure function from headline and summary
to the list of matched keywords); `trigger_keyword_list` abstracts the
keyword extraction from the pattern strings in `scan_markets`.  Provider
calls return `Except String` so that a collaborator exception and its
message can be modelled. -/
structure EngineCtx where
  enabled : Bool
  provider_enabled : Bool
  ts_config : TSConfig
  risk_config : RiskConfig
  trigger_keyword_list : List String
  check_news_trigger : String → String → List String
  get_markets_for_arb : List String → ℚ → Nat →
    Except String (List (String × List PolymarketMarket))
  get_quote : PolymarketMarket → Except String (Option PolymarketQuote)
  get_quotes_batch : List PolymarketMarket →
    Except String (List (String × PolymarketQuote))
  finnhub_init : Except String Unit
  get_market_news : String → Except String (List NewsItem)

/-- The engine's mutable state: the `_snapshots` store, the running
`_opportunities` log, and the risk manager's `_last_alert` dict. -/
structure EngineState where
  snapshots : List (String × ArbSnapshot)
  opportunities : List ArbOpportunity
  last_alert : List (String × ℚ)
deriving DecidableEq

/-- Loop body of `ArbEngine.create_snapshots`: existing snapshots are
returned unchanged, otherwise the provider is asked for a quote (which can
raise; mutations made before a raise persist, hence the store is returned
in both outcomes); a missing quote skips the market. -/
def ArbEngine.create_snapshots_go
    (get_quote : PolymarketMarket → Except String (Option PolymarketQuote))
    (now : ℚ) (news_id : String) :
    List PolymarketMarket → List (String × ArbSnapshot) →
    List (String × ArbSnapshot) →
    List (String × ArbSnapshot) × Except String (List (String × ArbSnapshot))
  | [], store, res => (store, .ok res)
  | m :: rest, store, res =>
    match dictGet m.market_id store with
    | some s =>
      ArbEngine.create_snapshots_go get_quote now news_id rest store
        (dictSet m.market_id s res)
    | none =>
      match get_quote m with
      | .error e => (store, .error e)
      | .ok none => ArbEngine.create_snapshots_go get_quote now news_id rest store res
      | .ok (some quote) =>
        let snapshot : ArbSnapshot :=
          { market_id := m.market_id
            news_id := news_id
            first_seen_ts := some now
            p0 := quote.mid
            quote0 := quote
            volume0 := quote.volume_24h }
        ArbEngine.create_snapshots_go get_quote now news_id rest
          (dictSet m.market_id snapshot store) (dictSet m.market_id snapshot res)

/-- `ArbEngine.create_snapshots` from engine.py: `now` is the single
`format_timestamp(now_utc())` taken before the loop; returns the updated
`_snapshots` store and (unless the provider raised) the per-call result
dict. -/
def ArbEngine.create_snapshots
    (get_quote : PolymarketMarket → Except String (Option PolymarketQuote))
    (now : ℚ) (markets : List PolymarketMarket) (news_id : String)
    (store : List (String × ArbSnapshot)) :
    List (String × ArbSnapshot) × Except String (List (String × ArbSnapshot)) :=
  ArbEngine.create_snapshots_go get_quote now news_id markets store []

/-- `ArbEngine.scan_markets` from engine.py.  The keyword cleaning keeps
entries longer than 2 characters, strips them, deduplicates and truncates
to 20 (Python builds the deduplicated list through a `set`, whose iteration
order is unspecified; first-occurrence order is used here). -/
def ArbEngine.scan_markets (ctx : EngineCtx) (keywords : Option (List String)) :
    Except String (List (String × List PolymarketMarket)) :=
  if ¬(ctx.enabled && ctx.provider_enabled) then .ok []
  else
    let kws := keywords.getD ctx.trigger_keyword_list
    let kws := (((kws.filter fun k => 2 < k.length).map String.trim).dedup).take 20
    ctx.get_markets_for_arb kws ctx.risk_config.min_volume_24h 2

/-- Loop body of `ArbEngine.detect_opportunities`: per event, ensure
snapshots, fetch a quote batch, require at least 2 quotes, and run the
strategy; the spawned uuid is modelled by passing the event id as the
opportunity id. -/
def ArbEngine.detect_opportunities_go (ctx : EngineCtx) (now : ℚ)
    (trigger_ts : Option ℚ) :
    List (String × List PolymarketMarket) → EngineState → List ArbOpportunity →
    EngineState × Except String (List ArbOpportunity)
  | [], st, acc => (st, .ok acc)
  | (event_id, markets) :: rest, st, acc =>
    let snapRes := ArbEngine.create_snapshots ctx.get_quote now markets "manual"
      st.snapshots
    let st := { st with snapshots := snapRes.1 }
    match snapRes.2 with
    | .error e => (st, .error e)
    | .ok _ =>
      match ctx.get_quotes_batch markets with
      | .error e => (st, .error e)
      | .ok quotes =>
        if quotes.length < 2 then
          ArbEngine.detect_opportunities_go ctx now trigger_ts rest st acc
        else
          let event_snapshots := markets.filterMap fun m =>
            (dictGet m.market_id st.snapshots).map fun s => (m.market_id, s)
          match TermStructureStrategy.evaluate ctx.ts_config now event_id
              event_id markets quotes event_snapshots trigger_ts with
          | some opportunity =>
            ArbEngine.detect_opportunities_go ctx now trigger_ts rest st
              (acc ++ [opportunity])
          | none => ArbEngine.detect_opportunities_go ctx now trigger_ts rest st acc

/-- `ArbEngine.detect_opportunities` from engine.py. -/
def ArbEngine.detect_opportunities (ctx : EngineCtx) (now : ℚ)
    (event_markets : List (String × List PolymarketMarket))
    (trigger_ts : Option ℚ) (st : EngineState) :
    EngineState × Except String (List ArbOpportunity) :=
  if ¬ctx.enabled then (st, .ok [])
  else ArbEngine.detect_opportunities_go ctx now trigger_ts event_markets st []

/-- Loop body of `ArbEngine.filter_opportunities`: re-fetch quotes per
event, run the risk manager, promote passing candidates to CONFIRMED and
append them to the engine's opportunity log. -/
def ArbEngine.filter_opportunities_go (ctx : EngineCtx) (now : ℚ)
    (event_markets : List (String × List PolymarketMarket)) :
    List ArbOpportunity → EngineState → List ArbOpportunity →
    EngineState × Except String (List ArbOpportunity)
  | [], st, acc => (st, .ok acc)
  | opp :: rest, st, acc =>
    let markets := (dictGet opp.event_id event_markets).getD []
    let markets_dict := markets.foldl (fun d m => dictSet m.market_id m d) []
    match ctx.get_quotes_batch markets with
    | .error e => (st, .error e)
    | .ok quotes =>
      let fr := RiskManager.filter ctx.risk_config now st.last_alert opp quotes
        (some markets_dict)
      let st := { st with last_alert := fr.2 }
      if fr.1.status = "CANDIDATE" then
        let confirmed := { fr.1 with status := "CONFIRMED" }
        ArbEngine.filter_opportunities_go ctx now event_markets rest
          { st with opportunities := st.opportunities ++ [confirmed] }
          (acc ++ [confirmed])
      else ArbEngine.filter_opportunities_go ctx now event_markets rest st acc

/-- `ArbEngine.filter_opportunities` from engine.py. -/
def ArbEngine.filter_opportunities (ctx : EngineCtx) (now : ℚ)
    (opportunities : List ArbOpportunity)
    (event_markets : List (String × List PolymarketMarket)) (st : EngineState) :
    EngineState × Except String (List ArbOpportunity) :=
  ArbEngine.filter_opportunities_go ctx now event_markets opportunities st []

/-- `ArbEngine.run_scan` from engine.py: scan, detect, filter, with the
disabled / no-events / no-raw-opportunities short circuits. -/
def ArbEngine.run_scan (ctx : EngineCtx) (now : ℚ)
    (keywords : Option (List String)) (trigger_ts : Option ℚ)
    (st : EngineState) : EngineState × Except String (List ArbOpportunity) :=
  if ¬ctx.enabled then (st, .ok [])
  else
    match ArbEngine.scan_markets ctx keywords with
    | .error e => (st, .error e)
    | .ok event_markets =>
      if event_markets.isEmpty then (st, .ok [])
      else
        let det := ArbEngine.detect_opportunities ctx now event_markets trigger_ts st
        match det.2 with
        | .error e => (det.1, .error e)
        | .ok raw =>
          if raw.isEmpty then (det.1, .ok [])
          else ArbEngine.filter_opportunities ctx now raw event_markets det.1

set_option linter.unusedVariables false in
/-- `ArbEngine.process_news` from engine.py: keyword gate, then a scan with
the matched keywords and the current instant as trigger timestamp.  The
`news_id` argument is accepted and, as in the source, not used by the
scan. -/
def ArbEngine.process_news (ctx : EngineCtx) (now : ℚ)
    (headline summary news_id : String) (st : EngineState) :
    EngineState × Except String (List ArbOpportunity) :=
  if ¬ctx.enabled then (st, .ok [])
  else
    let matched := ctx.check_news_trigger headline summary
    if matched.isEmpty then (st, .ok [])
    else ArbEngine.run_scan ctx now (some matched) (some now) st

/-- Loop body of `ArbEngine.scan_finnhub_news`: process each news item,
accumulating all returned opportunities (`item.url or item.title[:50]` is
the news id). -/
def ArbEngine.scan_finnhub_news_go (ctx : EngineCtx) (now : ℚ) :
    List NewsItem → EngineState → List ArbOpportunity →
    EngineState × Except String (List ArbOpportunity)
  | [], st, acc => (st, .ok acc)
  | item :: rest, st, acc =>
    let news_id := if item.url = "" then item.title.take 50 else item.url
    let pr := ArbEngine.process_news ctx now item.title item.summary news_id st
    match pr.2 with
    | .error e => (pr.1, .error e)
    | .ok opps => ArbEngine.scan_finnhub_news_go ctx now rest pr.1 (acc ++ opps)

/-- `ArbEngine.scan_finnhub_news` from engine.py, as invoked from
`run_full_pipeline` (the provider is passed in, so the local
provider-construction fallback of the standalone entry is not taken). -/
def ArbEngine.scan_finnhub_news (ctx : EngineCtx) (now : ℚ) (category : String)
    (st : EngineState) : EngineState × Except String (List ArbOpportunity) :=
  if ¬ctx.enabled then (st, .ok [])
  else
    match ctx.get_market_news category with
    | .error e => (st, .error e)
    | .ok news_items =>
      if news_items.isEmpty then (st, .ok [])
      else ArbEngine.scan_finnhub_news_go ctx now news_items st []

/-- Result dict of `ArbEngine.run_full_pipeline`, with its nine keys. -/
structure PipelineResult where
  timestamp : ℚ
  enabled : Bool
  news_scanned : Nat
  news_triggered : Nat
  events_found : Nat
  opportunities_raw : Nat
  opportunities_confirmed : Nat
  opportunities : List ArbOpportunity
  errors : List String
deriving DecidableEq

/-- Body of the `try` block of `ArbEngine.run_full_pipeline`: construct the
Finnhub provider, fetch and count news, then run the news-triggered scan;
or, without the news trigger, a plain `run_scan`.  Returns the
`news_scanned` / `news_triggered` counts together with the confirmed
opportunities, or the message of the first uncaught exception. -/
def ArbEngine.run_full_pipeline_body (ctx : EngineCtx) (now : ℚ)
    (use_finnhub : Bool) (finnhub_category : String) (st : EngineState) :
    EngineState × Except String (Nat × Nat × List ArbOpportunity) :=
  if use_finnhub then
    match ctx.finnhub_init with
    | .error e => (st, .error e)
    | .ok _ =>
      match ctx.get_market_news finnhub_category with
      | .error e => (st, .error e)
      | .ok news_items =>
        let news_scanned := news_items.length
        let news_triggered := (news_items.filter fun item =>
          !(ctx.check_news_trigger item.title item.summary).isEmpty).length
        let sr := ArbEngine.scan_finnhub_news ctx now finnhub_category st
        match sr.2 with
        | .error e => (sr.1, .error e)
        | .ok opps => (sr.1, .ok (news_scanned, news_triggered, opps))
  else
    let sr := ArbEngine.run_scan ctx now none none st
    match sr.2 with
    | .error e => (sr.1, .error e)
    | .ok opps => (sr.1, .ok (0, 0, opps))

/-- `ArbEngine.run_full_pipeline` from engine.py: the result dict is
initialised with all counts at zero; a disabled engine short-circuits with
an error entry; otherwise the body runs inside `try`, with any exception
message appended to `errors`.  Note that `events_found` and
`opportunities_raw` are never written after initialisation. -/
def ArbEngine.run_full_pipeline (ctx : EngineCtx) (now : ℚ)
    (use_finnhub : Bool) (finnhub_category : String) (st : EngineState) :
    EngineState × PipelineResult :=
  let base : PipelineResult :=
    { timestamp := now
      enabled := ctx.enabled
      news_scanned := 0
      news_triggered := 0
      events_found := 0
      opportunities_raw := 0
      opportunities_confirmed := 0
      opportunities := []
      errors := [] }
  if ¬ctx.enabled then (st, { base with errors := ["Arbitrage engine is disabled"] })
  else
    match ArbEngine.run_full_pipeline_body ctx now use_finnhub finnhub_category st with
    | (st', .error e) => (st', { base with errors := [e] })
    | (st', .ok (ns, nt, opps)) =>
      (st', { base with
        news_scanned := ns
        news_triggered := nt
        opportunities_confirmed := opps.length
        opportunities := opps })

/-! Concrete fixtures, used by witnesses and counterexamples.  They follow
test scenario A of the spec: two markets on one event with tenors 7 and 30
days, both snapshotted at p0 = 0.50, current mids 0.60 / 0.52, spreads
50 bps, depths $2000, 24h volume $10000, and the default configuration. -/

/-- Default strategy configuration (the `.get` defaults in strategy.py). -/
def defaultTSConfig : TSConfig :=
  { delta_threshold := 5/100
    trigger_window_minutes := 120
    max_markets_per_event := 10 }

/-- Default risk configuration (the `.get` defaults in risk.py). -/
def defaultRiskConfig : RiskConfig :=
  { min_volume_24h := 5000
    max_spread_bps := 300
    min_depth_usd := 1000
    min_time_to_settle_hours := 12
    cooldown_seconds := 900 }

/-- Scenario A short-tenor market. -/
def marketShortA : PolymarketMarket :=
  { market_id := "m-short", event_id := "ev1", question := "q7",
    tenor_days := 7, active := true }

/-- Scenario A long-tenor market. -/
def marketLongA : PolymarketMarket :=
  { market_id := "m-long", event_id := "ev1", question := "q30",
    tenor_days := 30, active := true }

/-- Scenario A current quote of the short leg (mid 0.60). -/
def quoteShortA : PolymarketQuote :=
  { mid := 6/10, spread_bps := 50, depth_bid := 2000, depth_ask := 2000,
    volume_24h := some 10000 }

/-- Scenario A current quote of the long leg (mid 0.52). -/
def quoteLongA : PolymarketQuote :=
  { mid := 52/100, spread_bps := 50, depth_bid := 2000, depth_ask := 2000,
    volume_24h := some 10000 }

/-- Scenario A snapshot quote (both legs snapshotted at mid 0.50). -/
def quoteZeroA : PolymarketQuote :=
  { mid := 1/2, spread_bps := 50, depth_bid := 2000, depth_ask := 2000,
    volume_24h := some 10000 }

/-- Scenario A snapshot of the short leg (p0 = 0.50, taken at t = 1000). -/
def snapShortA : ArbSnapshot :=
  { market_id := "m-short", news_id := "manual", first_seen_ts := some 1000,
    p0 := 1/2, quote0 := quoteZeroA, volume0 := some 10000 }

/-- Scenario A snapshot of the long leg. -/
def snapLongA : ArbSnapshot :=
  { market_id := "m-long", news_id := "manual", first_seen_ts := some 1000,
    p0 := 1/2, quote0 := quoteZeroA, volume0 := some 10000 }

/-- Scenario A quote dict. -/
def quotesA : List (String × PolymarketQuote) :=
  [("m-short", quoteShortA), ("m-long", quoteLongA)]

/-- Scenario A snapshot dict. -/
def snapsA : List (String × ArbSnapshot) :=
  [("m-short", snapShortA), ("m-long", snapLongA)]

/-- Scenario A market metadata dict. -/
def marketsDictA : List (String × PolymarketMarket) :=
  [("m-short", marketShortA), ("m-long", marketLongA)]

/-- Scenario A engine environment: one event with the two markets above,
quotes as above, a provider that never raises, and no news. -/
def ctxA : EngineCtx :=
  { enabled := true
    provider_enabled := true
    ts_config := defaultTSConfig
    risk_config := defaultRiskConfig
    trigger_keyword_list := ["fed"]
    check_news_trigger := fun _ _ => []
    get_markets_for_arb := fun _ _ _ => .ok [("ev1", [marketShortA, marketLongA])]
    get_quote := fun m =>
      .ok (if m.market_id = "m-short" then some quoteShortA else some quoteLongA)
    get_quotes_batch := fun _ => .ok quotesA
    finnhub_init := .ok ()
    get_market_news := fun _ => .ok [] }

/-- Scenario A engine state: both snapshots already taken, no
opportunities logged, no cooldown clock entries. -/
def stA : EngineState :=
  { snapshots := snapsA, opportunities := [], last_alert := [] }

/-- Scenario A short leg as built by the strategy. -/
def legShortA : ArbOpportunityLeg :=
  { market_id := "m-short", question := "q7", tenor_days := 7,
    side := "SHORT_LEG", current_mid := 6/10, delta := 1/10 }

/-- Scenario A long leg as built by the strategy. -/
def legLongA : ArbOpportunityLeg :=
  { market_id := "m-long", question := "q30", tenor_days := 30,
    side := "LONG_LEG", current_mid := 52/100, delta := 1/50 }

/-- The opportunity that the strategy produces in scenario A at t = 1000:
delta_diff = 0.08, cost = 0.005, edge = 0.075, confidence = 17/18. -/
def oppA : ArbOpportunity :=
  { id := "ev1"
    timestamp := 1000
    type := "TERM_STRUCTURE"
    event_id := "ev1"
    legs := [legShortA, legLongA]
    delta_diff := 2/25
    edge := 3/40
    confidence := 17/18
    evidence :=
      { trigger_ts := none
        window_elapsed_min := 0
        short_p0 := 1/2
        long_p0 := 1/2
        short_quote := quoteShortA
        long_quote := quoteLongA
        delta_short := 1/10
        delta_long := 1/50
        estimated_costs := 1/200 }
    risk_flags := []
    status := "CANDIDATE" }

/-- Scenario A opportunity after risk filtering and promotion. -/
def oppAConfirmed : ArbOpportunity := { oppA with status := "CONFIRMED" }

/-- Scenario A engine state after a full pipeline run at t = 1000: the
confirmed opportunity is logged and the cooldown clock of `ev1` is set. -/
def stFinalA : EngineState :=
  { snapshots := snapsA
    opportunities := [oppAConfirmed]
    last_alert := [("ev1", 1000)] }

/-- Scenario A environment with the engine disabled in the configuration. -/
def ctxDisabled : EngineCtx := { ctxA with enabled := false }

/-- The stats dict returned by `run_full_pipeline` on scenario A at
t = 1000 without the news trigger: one opportunity confirmed, yet
`events_found` and `opportunities_raw` still 0. -/
def resultA : PipelineResult :=
  { timestamp := 1000
    enabled := true
    news_scanned := 0
    news_triggered := 0
    events_found := 0
    opportunities_raw := 0
    opportunities_confirmed := 1
    opportunities := [oppAConfirmed]
    errors := [] }

/-- Scenario B short-leg quote: 24h volume $1000, below the $5000 floor. -/
def quoteShortB : PolymarketQuote := { quoteShortA with volume_24h := some 1000 }

/-- Scenario B quote dict (low volume on the short leg). -/
def quotesB : List (String × PolymarketQuote) :=
  [("m-short", quoteShortB), ("m-long", quoteLongA)]

/-- Short-leg quote with unknown (None) 24h volume. -/
def quoteShortC : PolymarketQuote := { quoteShortA with volume_24h := none }

/-- Quote dict with unknown volume on the short leg. -/
def quotesC : List (String × PolymarketQuote) :=
  [("m-short", quoteShortC), ("m-long", quoteLongA)]

/-- Quote dict where both legs sit at mid 0.52, so the deltas agree and the
delta difference is below the threshold. -/
def quotesD : List (String × PolymarketQuote) :=
  [("m-short", quoteLongA), ("m-long", quoteLongA)]

/-! Theorems.  General lemmas about the dictionary model come first, then
the claims, grouped by component. -/

theorem dictGet_dictSet_self {β : Type} (k : String) (v : β) (d : List (String × β)) :
    dictGet k (dictSet k v d) = some v := by
  induction d with
  | nil => simp [dictGet, dictSet]
  | cons p rest ih =>
    obtain ⟨k', v'⟩ := p
    by_cases h : k' = k
    · simp [dictGet, dictSet, h]
    · simp [dictGet, dictSet, h, ih]

theorem dictGet_dictSet_ne {β : Type} {k k' : String} (hne : k' ≠ k) (v : β)
    (d : List (String × β)) : dictGet k (dictSet k' v d) = dictGet k d := by
  induction d with
  | nil => simp [dictGet, dictSet, hne]
  | cons p rest ih =>
    obtain ⟨k'', v''⟩ := p
    by_cases h : k'' = k'
    · subst h
      simp [dictGet, dictSet, hne]
    · by_cases h2 : k'' = k
      · subst h2
        simp [dictGet, dictSet, h]
      · simp [dictGet, dictSet, h, h2, ih]

theorem create_snapshots_go_store
    (gq : PolymarketMarket → Except String (Option PolymarketQuote))
    (now : ℚ) (news_id : String) (markets : List PolymarketMarket) :
    ∀ (store res : List (String × ArbSnapshot)) (mid : String) (s : ArbSnapshot),
      dictGet mid store = some s →
      dictGet mid (ArbEngine.create_snapshots_go gq now news_id markets store res).1
        = some s := by
  induction markets with
  | nil =>
    intro store res mid s h
    simpa [ArbEngine.create_snapshots_go] using h
  | cons m rest ih =>
    intro store res mid s h
    unfold ArbEngine.create_snapshots_go
    cases hm : dictGet m.market_id store with
    | some s' => exact ih _ _ _ _ h
    | none =>
      cases hq : gq m with
      | error e => simpa using h
      | ok oq =>
        cases oq with
        | none => exact ih _ _ _ _ h
        | some quote =>
          apply ih
          have hne : m.market_id ≠ mid := by
            intro he
            rw [he, h] at hm
            exact Option.noConfusion hm
          rw [dictGet_dictSet_ne hne]
          exact h

theorem create_snapshots_go_result
    (gq : PolymarketMarket → Except String (Option PolymarketQuote))
    (now : ℚ) (news_id : String) (markets : List PolymarketMarket) :
    ∀ (store res : List (String × ArbSnapshot)) (mid : String) (s : ArbSnapshot)
      (out : List (String × ArbSnapshot)),
      dictGet mid store = some s →
      (dictGet mid res = some s ∨ mid ∈ markets.map PolymarketMarket.market_id) →
      (ArbEngine.create_snapshots_go gq now news_id markets store res).2 = .ok out →
      dictGet mid out = some s := by
  induction markets with
  | nil =>
    intro store res mid s out h hd hout
    simp only [ArbEngine.create_snapshots_go, Except.ok.injEq] at hout
    rcases hd with hd | hd
    · rwa [← hout]
    · simp at hd
  | cons m rest ih =>
    intro store res mid s out h hd hout
    unfold ArbEngine.create_snapshots_go at hout
    by_cases hid : m.market_id = mid
    · subst hid
      rw [h] at hout
      refine ih _ _ _ _ _ h (Or.inl ?_) hout
      exact dictGet_dictSet_self _ _ _
    · have hd' : dictGet mid res = some s ∨ mid ∈ rest.map PolymarketMarket.market_id := by
        rcases hd with hd | hd
        · exact Or.inl hd
        · rcases List.mem_map.mp hd with ⟨m', hm', he⟩
          rcases List.mem_cons.mp hm' with hh | ht
          · exact absurd (hh ▸ he) hid
          · exact Or.inr (List.mem_map.mpr ⟨m', ht, he⟩)
      cases hm : dictGet m.market_id store with
      | some s' =>
        rw [hm] at hout
        refine ih _ _ _ _ _ h ?_ hout
        rcases hd' with hdl | hdr
        · exact Or.inl (by rwa [dictGet_dictSet_ne hid])
        · exact Or.inr hdr
      | none =>
        rw [hm] at hout
        cases hq : gq m with
        | error e =>
          rw [hq] at hout
          exact absurd hout (by simp)
        | ok oq =>
          rw [hq] at hout
          cases oq with
          | none => exact ih _ _ _ _ _ h hd' hout
          | some quote =>
            refine ih _ _ _ _ _ ?_ ?_ hout
            · rwa [dictGet_dictSet_ne hid]
            · rcases hd' with hdl | hdr
              · exact Or.inl (by rwa [dictGet_dictSet_ne hid])
              · exact Or.inr hdr

/-- C1: once a snapshot exists for a market id, any later
`create_snapshots` call (with any news id, market list, quoting behaviour
or time) leaves the stored snapshot unchanged — in particular its `p0` —
and, when the call completes and the market was in the requested list, the
returned dict maps that market id to the existing snapshot object. -/
theorem claim_snapshot_idempotence
    (gq : PolymarketMarket → Except String (Option PolymarketQuote))
    (now : ℚ) (markets : List PolymarketMarket) (news_id : String)
    (store : List (String × ArbSnapshot)) (mid : String) (s : ArbSnapshot)
    (h : dictGet mid store = some s) :
    dictGet mid (ArbEngine.create_snapshots gq now markets news_id store).1 = some s ∧
    (dictGet mid (ArbEngine.create_snapshots gq now markets news_id store).1).map
      ArbSnapshot.p0 = some s.p0 ∧
    (∀ out, (ArbEngine.create_snapshots gq now markets news_id store).2 = .ok out →
      mid ∈ markets.map PolymarketMarket.market_id → dictGet mid out = some s) := by
  refine ⟨?_, ?_, ?_⟩
  · exact create_snapshots_go_store gq now news_id markets store [] mid s h
  · rw [show (ArbEngine.create_snapshots gq now markets news_id store).1
        = (ArbEngine.create_snapshots_go gq now news_id markets store []).1 from rfl,
      create_snapshots_go_store gq now news_id markets store [] mid s h]
    rfl
  · intro out hout hmem
    exact create_snapshots_go_result gq now news_id markets store [] mid s out h
      (Or.inr hmem) hout

theorem filter_status_eq (cfg : RiskConfig) (now : ℚ) (la : List (String × ℚ))
    (opp : ArbOpportunity) (quotes : List (String × PolymarketQuote))
    (markets : Option (List (String × PolymarketMarket))) :
    (RiskManager.filter cfg now la opp quotes markets).1.status
      = if (opp.legs.any (legHard cfg quotes markets)
            || decide (now - (dictGet opp.event_id la).getD 0 < cfg.cooldown_seconds)) = true
        then "FILTERED" else "CANDIDATE" := rfl

theorem filter_flags_eq (cfg : RiskConfig) (now : ℚ) (la : List (String × ℚ))
    (opp : ArbOpportunity) (quotes : List (String × PolymarketQuote))
    (markets : Option (List (String × PolymarketMarket))) :
    (RiskManager.filter cfg now la opp quotes markets).1.risk_flags
      = if decide (now - (dictGet opp.event_id la).getD 0 < cfg.cooldown_seconds) = true
        then (opp.legs.map (legFlags cfg quotes markets)).flatten
          ++ [RiskFlag.COOLDOWN opp.event_id
              (cfg.cooldown_seconds - (now - (dictGet opp.event_id la).getD 0))]
        else (opp.legs.map (legFlags cfg quotes markets)).flatten := rfl

theorem filter_snd_eq (cfg : RiskConfig) (now : ℚ) (la : List (String × ℚ))
    (opp : ArbOpportunity) (quotes : List (String × PolymarketQuote))
    (markets : Option (List (String × PolymarketMarket))) :
    (RiskManager.filter cfg now la opp quotes markets).2
      = if (RiskManager.filter cfg now la opp quotes markets).1.status = "CANDIDATE"
        then dictSet opp.event_id now la else la := rfl

theorem lowvol_mem_legFlags (cfg : RiskConfig)
    (quotes : List (String × PolymarketQuote))
    (markets : Option (List (String × PolymarketMarket)))
    (leg : ArbOpportunityLeg) (mid : String) (v : ℚ) :
    RiskFlag.LOW_VOLUME mid v ∈ legFlags cfg quotes markets leg
      ↔ leg.market_id = mid ∧ ∃ q, dictGet leg.market_id quotes = some q ∧
          q.volume_24h = some v ∧ v < cfg.min_volume_24h := by
  unfold legFlags
  cases hq : dictGet leg.market_id quotes with
  | none => simp [hq]
  | some q =>
    cases hv : q.volume_24h with
    | none =>
      simp only [List.mem_append]
      constructor
      · rintro (((h | h) | h) | h) <;> (repeat' split at h) <;> simp_all
      · rintro ⟨-, q', hq', hv', -⟩
        injection hq' with hqq
        subst hqq
        simp_all
    | some v' =>
      simp only [List.mem_append]
      constructor
      · rintro (((h | h) | h) | h) <;> (repeat' split at h) <;> simp_all
      · rintro ⟨hmid, q', hq', hv', hlt⟩
        injection hq' with hqq
        subst hqq
        rw [hv] at hv'
        injection hv' with hvv
        subst hvv
        refine Or.inl (Or.inl (Or.inl ?_))
        rw [hv]
        simp [hlt, hmid]

theorem legHard_eq_true_iff (cfg : RiskConfig)
    (quotes : List (String × PolymarketQuote))
    (markets : Option (List (String × PolymarketMarket)))
    (leg : ArbOpportunityLeg) :
    legHard cfg quotes markets leg = true ↔
      dictGet leg.market_id quotes = none ∨
      (∃ q, dictGet leg.market_id quotes = some q ∧
        ((∃ v, q.volume_24h = some v ∧ v < cfg.min_volume_24h) ∨
         q.spread_bps > cfg.max_spread_bps ∨
         (∃ mks mk, markets = some mks ∧ dictGet leg.market_id mks = some mk ∧
           mk.tenor_days * 24 < cfg.min_time_to_settle_hours))) := by
  unfold legHard
  cases hq : dictGet leg.market_id quotes with
  | none => simp
  | some q =>
    cases hv : q.volume_24h with
    | none =>
      cases markets with
      | none => simp [hv]
      | some mks =>
        cases hmk : dictGet leg.market_id mks with
        | none => simp [hv, hmk]
        | some mk => simp [hv, hmk, or_assoc]
    | some v' =>
      cases markets with
      | none => simp [hv]
      | some mks =>
        cases hmk : dictGet leg.market_id mks with
        | none => simp [hv, hmk]
        | some mk => simp [hv, hmk, or_assoc]

/-- C2: if a risk-manager evaluation for an opportunity passes (status
CANDIDATE) at time `t`, then the cooldown clock of its event is set to `t`,
and any later evaluation of an opportunity with the same event id at a time
`t'` with `t' − t < cooldown_seconds` comes out FILTERED carrying a
COOLDOWN flag for that event with a positive remaining time, and leaves the
cooldown clock unchanged. -/
theorem claim_cooldown_enforcement (cfg : RiskConfig) (t t' : ℚ)
    (la : List (String × ℚ)) (opp opp' : ArbOpportunity)
    (quotes quotes' : List (String × PolymarketQuote))
    (markets markets' : Option (List (String × PolymarketMarket)))
    (he : opp'.event_id = opp.event_id)
    (hpass : (RiskManager.filter cfg t la opp quotes markets).1.status = "CANDIDATE")
    (hlt : t' - t < cfg.cooldown_seconds) :
    dictGet opp.event_id (RiskManager.filter cfg t la opp quotes markets).2 = some t ∧
    (RiskManager.filter cfg t' (RiskManager.filter cfg t la opp quotes markets).2
        opp' quotes' markets').1.status = "FILTERED" ∧
    0 < cfg.cooldown_seconds - (t' - t) ∧
    RiskFlag.COOLDOWN opp'.event_id (cfg.cooldown_seconds - (t' - t))
      ∈ (RiskManager.filter cfg t' (RiskManager.filter cfg t la opp quotes markets).2
          opp' quotes' markets').1.risk_flags ∧
    (RiskManager.filter cfg t' (RiskManager.filter cfg t la opp quotes markets).2
        opp' quotes' markets').2
      = (RiskManager.filter cfg t la opp quotes markets).2 := by
  have hla1 : (RiskManager.filter cfg t la opp quotes markets).2
      = dictSet opp.event_id t la := by
    rw [filter_snd_eq, if_pos hpass]
  have h1 : dictGet opp.event_id (RiskManager.filter cfg t la opp quotes markets).2
      = some t := by
    rw [hla1]
    exact dictGet_dictSet_self _ _ _
  have hlast : (dictGet opp'.event_id
      (RiskManager.filter cfg t la opp quotes markets).2).getD 0 = t := by
    rw [he, h1]
    rfl
  have hcool : decide (t' - (dictGet opp'.event_id
      (RiskManager.filter cfg t la opp quotes markets).2).getD 0
        < cfg.cooldown_seconds) = true := by
    rw [hlast]
    exact decide_eq_true hlt
  have hstat : (RiskManager.filter cfg t'
      (RiskManager.filter cfg t la opp quotes markets).2 opp' quotes' markets').1.status
        = "FILTERED" := by
    rw [filter_status_eq, hcool]
    simp
  refine ⟨h1, hstat, by linarith, ?_, ?_⟩
  · rw [filter_flags_eq, if_pos hcool, hlast]
    exact List.mem_append_right _ (List.mem_singleton.mpr rfl)
  · rw [filter_snd_eq, hstat, if_neg (by decide)]

/-- Witness for C2: in scenario A, a first filtering at t = 1000 passes;
filtering the same opportunity again at t = 1100 (400 s before the 900 s
cooldown expires) is FILTERED with a COOLDOWN flag of 800 s remaining. -/
theorem claim_cooldown_enforcement_witness :
    dictGet oppA.event_id (RiskManager.filter defaultRiskConfig 1000 [] oppA
      quotesA (some marketsDictA)).2 = some 1000 ∧
    (RiskManager.filter defaultRiskConfig 1100
        (RiskManager.filter defaultRiskConfig 1000 [] oppA quotesA
          (some marketsDictA)).2 oppA quotesA (some marketsDictA)).1.status
      = "FILTERED" ∧
    0 < defaultRiskConfig.cooldown_seconds - (1100 - 1000) ∧
    RiskFlag.COOLDOWN oppA.event_id
        (defaultRiskConfig.cooldown_seconds - (1100 - 1000))
      ∈ (RiskManager.filter defaultRiskConfig 1100
          (RiskManager.filter defaultRiskConfig 1000 [] oppA quotesA
            (some marketsDictA)).2 oppA quotesA (some marketsDictA)).1.risk_flags ∧
    (RiskManager.filter defaultRiskConfig 1100
        (RiskManager.filter defaultRiskConfig 1000 [] oppA quotesA
          (some marketsDictA)).2 oppA quotesA (some marketsDictA)).2
      = (RiskManager.filter defaultRiskConfig 1000 [] oppA quotesA
          (some marketsDictA)).2 :=
  claim_cooldown_enforcement defaultRiskConfig 1000 1100 [] oppA oppA
    quotesA quotesA (some marketsDictA) (some marketsDictA) rfl
    (by rw [filter_status_eq]
        norm_num +decide [oppA, legShortA, legLongA, legHard, dictGet, quotesA,
          marketsDictA, defaultRiskConfig, quoteShortA, quoteLongA,
          marketShortA, marketLongA])
    (by norm_num [defaultRiskConfig])

/-- C5: if any leg of an opportunity has a quote whose 24h volume is a
number below `min_volume_24h`, the filtered opportunity has status
FILTERED and carries a LOW_VOLUME flag for that leg's market — whatever
the opportunity's edge, confidence or other fields are. -/
theorem claim_low_volume_dominance (cfg : RiskConfig) (now : ℚ)
    (la : List (String × ℚ)) (opp : ArbOpportunity)
    (quotes : List (String × PolymarketQuote))
    (markets : Option (List (String × PolymarketMarket)))
    (leg : ArbOpportunityLeg) (q : PolymarketQuote) (v : ℚ)
    (hleg : leg ∈ opp.legs) (hq : dictGet leg.market_id quotes = some q)
    (hv : q.volume_24h = some v) (hlt : v < cfg.min_volume_24h) :
    (RiskManager.filter cfg now la opp quotes markets).1.status = "FILTERED" ∧
    RiskFlag.LOW_VOLUME leg.market_id v
      ∈ (RiskManager.filter cfg now la opp quotes markets).1.risk_flags := by
  have hhard : opp.legs.any (legHard cfg quotes markets) = true :=
    List.any_eq_true.mpr ⟨leg, hleg,
      (legHard_eq_true_iff cfg quotes markets leg).mpr
        (Or.inr ⟨q, hq, Or.inl ⟨v, hv, hlt⟩⟩)⟩
  have hmem : RiskFlag.LOW_VOLUME leg.market_id v
      ∈ (opp.legs.map (legFlags cfg quotes markets)).flatten :=
    List.mem_flatten.mpr ⟨legFlags cfg quotes markets leg,
      List.mem_map_of_mem _ hleg,
      (lowvol_mem_legFlags cfg quotes markets leg leg.market_id v).mpr
        ⟨rfl, q, hq, hv, hlt⟩⟩
  constructor
  · rw [filter_status_eq, hhard]
    simp
  · rw [filter_flags_eq]
    split
    · exact List.mem_append_left _ hmem
    · exact hmem

/-- Witness for C5: scenario B — the short leg's 24h volume is $1000,
below the $5000 floor, so the scenario A opportunity comes out FILTERED
with a LOW_VOLUME flag despite its positive edge. -/
theorem claim_low_volume_dominance_witness :
    (RiskManager.filter defaultRiskConfig 1000 [] oppA quotesB
      (some marketsDictA)).1.status = "FILTERED" ∧
    RiskFlag.LOW_VOLUME legShortA.market_id 1000
      ∈ (RiskManager.filter defaultRiskConfig 1000 [] oppA quotesB
          (some marketsDictA)).1.risk_flags :=
  claim_low_volume_dominance defaultRiskConfig 1000 [] oppA quotesB
    (some marketsDictA) legShortA quoteShortB 1000
    (by simp [oppA]) (by simp +decide [legShortA, quotesB, dictGet])
    (by simp [quoteShortB, quoteShortA]) (by norm_num [defaultRiskConfig])

/-- C10: a leg whose quote is present but whose `volume_24h` is None never
produces a LOW_VOLUME flag for its market, and when the filter result is
FILTERED there is a hard-fail reason other than that leg's volume: a
missing quote, another market's low volume, a wide spread, a
too-close-to-settle tenor, or an active cooldown. -/
theorem claim_volume_none_skipped (cfg : RiskConfig) (now : ℚ)
    (la : List (String × ℚ)) (opp : ArbOpportunity)
    (quotes : List (String × PolymarketQuote))
    (markets : Option (List (String × PolymarketMarket)))
    (mid : String) (q : PolymarketQuote)
    (hq : dictGet mid quotes = some q) (hv : q.volume_24h = none) :
    (∀ v, RiskFlag.LOW_VOLUME mid v
      ∉ (RiskManager.filter cfg now la opp quotes markets).1.risk_flags) ∧
    ((RiskManager.filter cfg now la opp quotes markets).1.status = "FILTERED" →
      (∃ leg ∈ opp.legs,
        dictGet leg.market_id quotes = none ∨
        (∃ q', dictGet leg.market_id quotes = some q' ∧
          ((∃ v, q'.volume_24h = some v ∧ v < cfg.min_volume_24h ∧
            leg.market_id ≠ mid) ∨
           q'.spread_bps > cfg.max_spread_bps ∨
           (∃ mks mk, markets = some mks ∧ dictGet leg.market_id mks = some mk ∧
             mk.tenor_days * 24 < cfg.min_time_to_settle_hours)))) ∨
      now - (dictGet opp.event_id la).getD 0 < cfg.cooldown_seconds) := by
  constructor
  · intro v hvmem
    rw [filter_flags_eq] at hvmem
    have hfl : RiskFlag.LOW_VOLUME mid v
        ∈ (opp.legs.map (legFlags cfg quotes markets)).flatten := by
      split at hvmem
      · rcases List.mem_append.mp hvmem with h | h
        · exact h
        · simp at h
      · exact hvmem
    rcases List.mem_flatten.mp hfl with ⟨fl, hflmem, hmem⟩
    rcases List.mem_map.mp hflmem with ⟨leg, -, rfl⟩
    rcases (lowvol_mem_legFlags cfg quotes markets leg mid v).mp hmem
      with ⟨hid, q', hq', hv', -⟩
    rw [hid, hq] at hq'
    cases hq'
    rw [hv] at hv'
    cases hv'
  · intro hstat
    rw [filter_status_eq] at hstat
    by_cases hc : now - (dictGet opp.event_id la).getD 0 < cfg.cooldown_seconds
    · exact Or.inr hc
    · left
      have hhard : opp.legs.any (legHard cfg quotes markets) = true := by
        by_contra hno
        rw [Bool.not_eq_true] at hno
        simp [hno, hc] at hstat
      rcases List.any_eq_true.mp hhard with ⟨leg, hleg, hl⟩
      rcases (legHard_eq_true_iff cfg quotes markets leg).mp hl with hnone | ⟨q', hq', hcase⟩
      · exact ⟨leg, hleg, Or.inl hnone⟩
      · refine ⟨leg, hleg, Or.inr ⟨q', hq', ?_⟩⟩
        rcases hcase with ⟨v, hvv, hvl⟩ | hrest
        · refine Or.inl ⟨v, hvv, hvl, ?_⟩
          intro hidm
          rw [hidm, hq] at hq'
          cases hq'
          rw [hv] at hvv
          cases hvv
        · exact Or.inr hrest

/-- Witness for C10: with the short leg's volume unknown (None) and every
other check passing, no LOW_VOLUME flag for it appears, and the hard-fail
implication holds at the (non-FILTERED) result. -/
theorem claim_volume_none_skipped_witness :
    (∀ v, RiskFlag.LOW_VOLUME "m-short" v
      ∉ (RiskManager.filter defaultRiskConfig 1000 [] oppA quotesC
          (some marketsDictA)).1.risk_flags) ∧
    ((RiskManager.filter defaultRiskConfig 1000 [] oppA quotesC
        (some marketsDictA)).1.status = "FILTERED" →
      (∃ leg ∈ oppA.legs,
        dictGet leg.market_id quotesC = none ∨
        (∃ q', dictGet leg.market_id quotesC = some q' ∧
          ((∃ v, q'.volume_24h = some v ∧ v < defaultRiskConfig.min_volume_24h ∧
            leg.market_id ≠ "m-short") ∨
           q'.spread_bps > defaultRiskConfig.max_spread_bps ∨
           (∃ mks mk, (some marketsDictA : Option _) = some mks ∧
             dictGet leg.market_id mks = some mk ∧
             mk.tenor_days * 24 < defaultRiskConfig.min_time_to_settle_hours)))) ∨
      1000 - (dictGet oppA.event_id ([] : List (String × ℚ))).getD 0
        < defaultRiskConfig.cooldown_seconds) :=
  claim_volume_none_skipped defaultRiskConfig 1000 [] oppA quotesC
    (some marketsDictA) "m-short" quoteShortC
    (by simp [quotesC, dictGet]) (by simp [quoteShortC, quoteShortA])

theorem dictGet_mem {β : Type} {k : String} {v : β} {d : List (String × β)}
    (h : dictGet k d = some v) : (k, v) ∈ d := by
  induction d with
  | nil => cases h
  | cons p rest ih =>
    obtain ⟨k', v'⟩ := p
    by_cases hk : k' = k
    · subst hk
      rw [dictGet, if_pos rfl] at h
      injection h with hv
      subst hv
      exact List.mem_cons_self _ _
    · rw [dictGet, if_neg hk] at h
      exact List.mem_cons_of_mem _ (ih h)

theorem selectedMarkets_sorted (cfg : TSConfig) (markets : List PolymarketMarket)
    (quotes : List (String × PolymarketQuote))
    (snapshots : List (String × ArbSnapshot)) :
    List.Sorted tenorLE (selectedMarkets cfg markets quotes snapshots) :=
  List.Pairwise.sublist (List.take_sublist _ _)
    (List.sorted_insertionSort tenorLE (eligibleMarkets markets quotes snapshots))

theorem head_min_of_sorted {l : List PolymarketMarket}
    (hs : List.Sorted tenorLE l) {x : PolymarketMarket} (hx : l.head? = some x) :
    x ∈ l ∧ ∀ m ∈ l, x.tenor_days ≤ m.tenor_days := by
  cases l with
  | nil => cases hx
  | cons a t =>
    injection hx with hax
    subst hax
    refine ⟨List.mem_cons_self _ _, ?_⟩
    intro m hm
    rcases List.mem_cons.mp hm with rfl | hm
    · exact le_refl _
    · exact List.rel_of_pairwise_cons hs hm

theorem getLast_max_of_sorted {l : List PolymarketMarket}
    (hs : List.Sorted tenorLE l) {x : PolymarketMarket} (hx : l.getLast? = some x) :
    x ∈ l ∧ ∀ m ∈ l, m.tenor_days ≤ x.tenor_days := by
  have hrev : l.reverse.head? = some x := by
    rw [List.head?_reverse]
    exact hx
  have hs' : List.Pairwise (fun a b => tenorLE b a) l.reverse :=
    List.pairwise_reverse.mpr hs
  cases hrl : l.reverse with
  | nil => rw [hrl] at hrev; cases hrev
  | cons a t =>
    rw [hrl] at hrev hs'
    injection hrev with hax
    constructor
    · rw [← List.mem_reverse, hrl, hax]
      exact List.mem_cons_self _ _
    · intro m hm
      have hm' : m ∈ a :: t := by
        rw [← hrl, List.mem_reverse]
        exact hm
      rcases List.mem_cons.mp hm' with rfl | hm'
      · rw [hax]
      · have hma := List.rel_of_pairwise_cons hs' hm'
        rw [hax] at hma
        exact hma

theorem evaluate_eq_some {cfg : TSConfig} {now : ℚ} {oid event_id : String}
    {markets : List PolymarketMarket} {quotes : List (String × PolymarketQuote)}
    {snapshots : List (String × ArbSnapshot)} {trigger_ts : Option ℚ}
    {opp : ArbOpportunity}
    (h : TermStructureStrategy.evaluate cfg now oid event_id markets quotes
      snapshots trigger_ts = some opp) :
    ∃ short long snap_s snap_l quote_s quote_l,
      (selectedMarkets cfg markets quotes snapshots).head? = some short ∧
      (selectedMarkets cfg markets quotes snapshots).getLast? = some long ∧
      dictGet short.market_id snapshots = some snap_s ∧
      dictGet long.market_id snapshots = some snap_l ∧
      dictGet short.market_id quotes = some quote_s ∧
      dictGet long.market_id quotes = some quote_l ∧
      opp.legs =
        [{ market_id := short.market_id, question := short.question,
           tenor_days := short.tenor_days, side := "SHORT_LEG",
           current_mid := quote_s.mid, delta := quote_s.mid - snap_s.p0 },
         { market_id := long.market_id, question := long.question,
           tenor_days := long.tenor_days, side := "LONG_LEG",
           current_mid := quote_l.mid, delta := quote_l.mid - snap_l.p0 }] ∧
      opp.delta_diff = |quote_s.mid - snap_s.p0 - (quote_l.mid - snap_l.p0)| ∧
      ¬ opp.delta_diff < cfg.delta_threshold ∧
      opp.edge = opp.delta_diff - estimate_costs quote_s quote_l ∧
      0 < opp.edge ∧
      opp.confidence = confidence_from_liquidity quote_s quote_l := by
  simp only [TermStructureStrategy.evaluate] at h
  by_cases hlen : (eligibleMarkets markets quotes snapshots).length < 2
  · rw [if_pos hlen] at h
    exact absurd h (by simp)
  rw [if_neg hlen] at h
  rcases hhead : (selectedMarkets cfg markets quotes snapshots).head? with - | short
  · simp only [hhead] at h
    exact absurd h (by simp)
  rcases hlast : (selectedMarkets cfg markets quotes snapshots).getLast? with - | long
  · simp only [hhead, hlast] at h
    exact absurd h (by simp)
  simp only [hhead, hlast] at h
  rcases hss : dictGet short.market_id snapshots with - | snap_s
  · simp only [hss] at h
    exact absurd h (by simp)
  rcases hsl : dictGet long.market_id snapshots with - | snap_l
  · simp only [hss, hsl] at h
    exact absurd h (by simp)
  simp only [hss, hsl] at h
  split at h
  · exact absurd h (by simp)
  rcases hqs : dictGet short.market_id quotes with - | quote_s
  · simp only [hqs] at h
    exact absurd h (by simp)
  rcases hql : dictGet long.market_id quotes with - | quote_l
  · simp only [hqs, hql] at h
    exact absurd h (by simp)
  simp only [hqs, hql] at h
  split at h
  · exact absurd h (by simp)
  rename_i hdelta
  split at h
  · exact absurd h (by simp)
  rename_i hedge
  have hopp := Option.some.inj h
  subst hopp
  exact ⟨short, long, snap_s, snap_l, quote_s, quote_l, rfl, rfl, hss, hsl,
    hqs, hql, rfl, rfl, hdelta, rfl, not_le.mp hedge, rfl⟩

/-- C3: every opportunity returned by the strategy has a positive edge,
equal to its delta difference minus the estimated cost of its two legs
(`estimate_costs`: mean spread over 10000, doubled when the minimum depth
over both legs' bid and ask sides is under the $500 floor). -/
theorem claim_edge_positivity (cfg : TSConfig) (now : ℚ) (oid event_id : String)
    (markets : List PolymarketMarket) (quotes : List (String × PolymarketQuote))
    (snapshots : List (String × ArbSnapshot)) (trigger_ts : Option ℚ)
    (opp : ArbOpportunity)
    (h : TermStructureStrategy.evaluate cfg now oid event_id markets quotes
      snapshots trigger_ts = some opp) :
    0 < opp.edge ∧
    ∃ quote_s quote_l,
      (∃ ls ll, opp.legs = [ls, ll] ∧
        dictGet ls.market_id quotes = some quote_s ∧
        dictGet ll.market_id quotes = some quote_l) ∧
      opp.edge = opp.delta_diff - estimate_costs quote_s quote_l := by
  obtain ⟨short, long, snap_s, snap_l, quote_s, quote_l, -, -, -, -, hqs, hql,
    hlegs, -, -, hedge, hpos, -⟩ := evaluate_eq_some h
  exact ⟨hpos, quote_s, quote_l, ⟨_, _, hlegs, hqs, hql⟩, hedge⟩

/-- C4: whenever the selected short and long legs move together — the
absolute difference of their deltas is below `delta_threshold` — the
strategy returns no opportunity. -/
theorem claim_threshold_gate (cfg : TSConfig) (now : ℚ) (oid event_id : String)
    (markets : List PolymarketMarket) (quotes : List (String × PolymarketQuote))
    (snapshots : List (String × ArbSnapshot)) (trigger_ts : Option ℚ)
    (short long : PolymarketMarket) (snap_s snap_l : ArbSnapshot)
    (quote_s quote_l : PolymarketQuote)
    (hhead : (selectedMarkets cfg markets quotes snapshots).head? = some short)
    (hlast : (selectedMarkets cfg markets quotes snapshots).getLast? = some long)
    (hss : dictGet short.market_id snapshots = some snap_s)
    (hsl : dictGet long.market_id snapshots = some snap_l)
    (hqs : dictGet short.market_id quotes = some quote_s)
    (hql : dictGet long.market_id quotes = some quote_l)
    (hdelta : |quote_s.mid - snap_s.p0 - (quote_l.mid - snap_l.p0)|
      < cfg.delta_threshold) :
    TermStructureStrategy.evaluate cfg now oid event_id markets quotes snapshots
      trigger_ts = none := by
  simp only [TermStructureStrategy.evaluate]
  by_cases hlen : (eligibleMarkets markets quotes snapshots).length < 2
  · rw [if_pos hlen]
  · rw [if_neg hlen]
    simp only [hhead, hlast, hss, hsl]
    split
    · rfl
    · simp only [hqs, hql]
      rw [if_pos hdelta]

/-- C6: under the data model's sign conventions (spreads, depths and
volumes are nonnegative), every opportunity returned by the strategy has
confidence within [0, 1], and that confidence is
`confidence_from_liquidity` of its two legs' quotes (the mean of the
volume, bid-depth and spread factors). -/
theorem claim_confidence_bounds (cfg : TSConfig) (now : ℚ) (oid event_id : String)
    (markets : List PolymarketMarket) (quotes : List (String × PolymarketQuote))
    (snapshots : List (String × ArbSnapshot)) (trigger_ts : Option ℚ)
    (opp : ArbOpportunity)
    (hpos : ∀ p ∈ quotes, 0 ≤ p.2.spread_bps ∧ 0 ≤ p.2.depth_bid ∧
      ∀ v, p.2.volume_24h = some v → 0 ≤ v)
    (h : TermStructureStrategy.evaluate cfg now oid event_id markets quotes
      snapshots trigger_ts = some opp) :
    (0 ≤ opp.confidence ∧ opp.confidence ≤ 1) ∧
    ∃ quote_s quote_l,
      (∃ ls ll, opp.legs = [ls, ll] ∧
        dictGet ls.market_id quotes = some quote_s ∧
        dictGet ll.market_id quotes = some quote_l) ∧
      opp.confidence = confidence_from_liquidity quote_s quote_l := by
  obtain ⟨short, long, snap_s, snap_l, quote_s, quote_l, -, -, -, -, hqs, hql,
    hlegs, -, -, -, -, hconf⟩ := evaluate_eq_some h
  obtain ⟨hs1, hs2, hs3⟩ := hpos _ (dictGet_mem hqs)
  obtain ⟨hl1, hl2, hl3⟩ := hpos _ (dictGet_mem hql)
  have hvols : (0 : ℚ) ≤ quote_s.volume_24h.getD 0 := by
    cases hv : quote_s.volume_24h with
    | none => simp
    | some v => simpa using hs3 v hv
  have hvoll : (0 : ℚ) ≤ quote_l.volume_24h.getD 0 := by
    cases hv : quote_l.volume_24h with
    | none => simp
    | some v => simpa using hl3 v hv
  have hbounds : 0 ≤ confidence_from_liquidity quote_s quote_l ∧
      confidence_from_liquidity quote_s quote_l ≤ 1 := by
    unfold confidence_from_liquidity
    have hvmin : (0 : ℚ) ≤ min (quote_s.volume_24h.getD 0) (quote_l.volume_24h.getD 0) :=
      le_min hvols hvoll
    have hdmin : (0 : ℚ) ≤ min quote_s.depth_bid quote_l.depth_bid := le_min hs2 hl2
    have hsmax : (0 : ℚ) ≤ max quote_s.spread_bps quote_l.spread_bps :=
      le_trans hs1 (le_max_left _ _)
    have h1a : (0 : ℚ) ≤ min (min (quote_s.volume_24h.getD 0)
        (quote_l.volume_24h.getD 0) / 10000) 1 :=
      le_min (by positivity) (by norm_num)
    have h1b : min (min (quote_s.volume_24h.getD 0)
        (quote_l.volume_24h.getD 0) / 10000) 1 ≤ 1 := min_le_right _ _
    have h2a : (0 : ℚ) ≤ min (min quote_s.depth_bid quote_l.depth_bid / 2000) 1 :=
      le_min (by positivity) (by norm_num)
    have h2b : min (min quote_s.depth_bid quote_l.depth_bid / 2000) 1 ≤ 1 :=
      min_le_right _ _
    have h3a : (0 : ℚ) ≤ max 0 (1 - max quote_s.spread_bps quote_l.spread_bps / 300) :=
      le_max_left _ _
    have h3b : max 0 (1 - max quote_s.spread_bps quote_l.spread_bps / 300) ≤ 1 := by
      apply max_le (by norm_num)
      have : (0 : ℚ) ≤ max quote_s.spread_bps quote_l.spread_bps / 300 := by positivity
      linarith
    constructor
    · linarith
    · linarith
  rw [← hconf] at hbounds
  exact ⟨hbounds, quote_s, quote_l, ⟨_, _, hlegs, hqs, hql⟩, hconf⟩

/-- C7: every returned opportunity has exactly two legs; the SHORT_LEG is
the head and the LONG_LEG the last element of the eligible markets sorted
ascending by tenor and truncated to `max_markets_per_event`, hence they
carry the minimum and maximum tenor of that selection. -/
theorem claim_leg_selection (cfg : TSConfig) (now : ℚ) (oid event_id : String)
    (markets : List PolymarketMarket) (quotes : List (String × PolymarketQuote))
    (snapshots : List (String × ArbSnapshot)) (trigger_ts : Option ℚ)
    (opp : ArbOpportunity)
    (h : TermStructureStrategy.evaluate cfg now oid event_id markets quotes
      snapshots trigger_ts = some opp) :
    opp.legs.length = 2 ∧
    ∃ short long,
      (selectedMarkets cfg markets quotes snapshots).head? = some short ∧
      (selectedMarkets cfg markets quotes snapshots).getLast? = some long ∧
      short ∈ selectedMarkets cfg markets quotes snapshots ∧
      long ∈ selectedMarkets cfg markets quotes snapshots ∧
      (∃ ls ll, opp.legs = [ls, ll] ∧ ls.side = "SHORT_LEG" ∧
        ll.side = "LONG_LEG" ∧ ls.market_id = short.market_id ∧
        ls.tenor_days = short.tenor_days ∧ ll.market_id = long.market_id ∧
        ll.tenor_days = long.tenor_days) ∧
      (∀ m ∈ selectedMarkets cfg markets quotes snapshots,
        short.tenor_days ≤ m.tenor_days ∧ m.tenor_days ≤ long.tenor_days) := by
  obtain ⟨short, long, snap_s, snap_l, quote_s, quote_l, hhead, hlast, -, -, -, -,
    hlegs, -, -, -, -, -⟩ := evaluate_eq_some h
  have hsorted := selectedMarkets_sorted cfg markets quotes snapshots
  obtain ⟨hsmem, hsmin⟩ := head_min_of_sorted hsorted hhead
  obtain ⟨hlmem, hlmax⟩ := getLast_max_of_sorted hsorted hlast
  refine ⟨by rw [hlegs]; rfl, short, long, hhead, hlast, hsmem, hlmem,
    ⟨_, _, hlegs, rfl, rfl, rfl, rfl, rfl, rfl⟩, ?_⟩
  intro m hm
  exact ⟨hsmin m hm, hlmax m hm⟩

/-- The strategy fires on scenario A at t = 1000: both markets are
eligible, the window is fresh, delta_diff = 0.08 clears the 0.05 threshold,
and the 0.005 cost leaves edge 0.075. -/
theorem evaluateA :
    TermStructureStrategy.evaluate defaultTSConfig 1000 "ev1" "ev1"
      [marketShortA, marketLongA] quotesA snapsA none = some oppA := by
  norm_num +decide [TermStructureStrategy.evaluate, selectedMarkets,
    eligibleMarkets, List.insertionSort, List.orderedInsert, tenorLE, dictGet,
    estimate_costs, confidence_from_liquidity, defaultTSConfig, quotesA, snapsA,
    marketShortA, marketLongA, quoteShortA, quoteLongA, snapShortA, snapLongA,
    oppA, legShortA, legLongA]
  rw [abs_of_nonneg (show (0 : ℚ) ≤ 2/25 by norm_num)]
  norm_num

/-- Witness for C3: the scenario A opportunity has edge 3/40 > 0 and its
edge is delta_diff minus the estimated cost of its legs. -/
theorem claim_edge_positivity_witness :
    0 < oppA.edge ∧
    ∃ quote_s quote_l,
      (∃ ls ll, oppA.legs = [ls, ll] ∧
        dictGet ls.market_id quotesA = some quote_s ∧
        dictGet ll.market_id quotesA = some quote_l) ∧
      oppA.edge = oppA.delta_diff - estimate_costs quote_s quote_l :=
  claim_edge_positivity defaultTSConfig 1000 "ev1" "ev1"
    [marketShortA, marketLongA] quotesA snapsA none oppA evaluateA

/-- Witness for C4: with both legs quoted at mid 0.52 the deltas agree, so
delta_diff = 0 is under the 0.05 threshold and the strategy returns
nothing. -/
theorem claim_threshold_gate_witness :
    TermStructureStrategy.evaluate defaultTSConfig 1000 "ev1" "ev1"
      [marketShortA, marketLongA] quotesD snapsA none = none :=
  claim_threshold_gate defaultTSConfig 1000 "ev1" "ev1"
    [marketShortA, marketLongA] quotesD snapsA none
    marketShortA marketLongA snapShortA snapLongA quoteLongA quoteLongA
    (by norm_num +decide [selectedMarkets, eligibleMarkets, List.insertionSort,
      List.orderedInsert, tenorLE, dictGet, defaultTSConfig, quotesD, snapsA,
      marketShortA, marketLongA, quoteLongA, snapShortA, snapLongA])
    (by norm_num +decide [selectedMarkets, eligibleMarkets, List.insertionSort,
      List.orderedInsert, tenorLE, dictGet, defaultTSConfig, quotesD, snapsA,
      marketShortA, marketLongA, quoteLongA, snapShortA, snapLongA,
      List.getLast?])
    (by simp +decide [dictGet, snapsA, marketShortA])
    (by simp +decide [dictGet, snapsA, marketLongA])
    (by simp +decide [dictGet, quotesD, marketShortA])
    (by simp +decide [dictGet, quotesD, marketLongA])
    (by norm_num [quoteLongA, snapShortA, snapLongA, defaultTSConfig])

/-- Witness for C6: scenario A quotes are nonnegative and the produced
opportunity has confidence 17/18 within the unit interval. -/
theorem claim_confidence_bounds_witness :
    ((0 ≤ oppA.confidence ∧ oppA.confidence ≤ 1) ∧
    ∃ quote_s quote_l,
      (∃ ls ll, oppA.legs = [ls, ll] ∧
        dictGet ls.market_id quotesA = some quote_s ∧
        dictGet ll.market_id quotesA = some quote_l) ∧
      oppA.confidence = confidence_from_liquidity quote_s quote_l) :=
  claim_confidence_bounds defaultTSConfig 1000 "ev1" "ev1"
    [marketShortA, marketLongA] quotesA snapsA none oppA
    (by intro p hp
        simp only [quotesA, List.mem_cons, List.not_mem_nil, or_false] at hp
        rcases hp with rfl | rfl <;> norm_num [quoteShortA, quoteLongA])
    evaluateA

/-- Witness for C7: the scenario A opportunity has exactly the short-tenor
and long-tenor legs at the extremes of the selected markets. -/
theorem claim_leg_selection_witness :
    oppA.legs.length = 2 ∧
    ∃ short long,
      (selectedMarkets defaultTSConfig [marketShortA, marketLongA] quotesA
        snapsA).head? = some short ∧
      (selectedMarkets defaultTSConfig [marketShortA, marketLongA] quotesA
        snapsA).getLast? = some long ∧
      short ∈ selectedMarkets defaultTSConfig [marketShortA, marketLongA]
        quotesA snapsA ∧
      long ∈ selectedMarkets defaultTSConfig [marketShortA, marketLongA]
        quotesA snapsA ∧
      (∃ ls ll, oppA.legs = [ls, ll] ∧ ls.side = "SHORT_LEG" ∧
        ll.side = "LONG_LEG" ∧ ls.market_id = short.market_id ∧
        ls.tenor_days = short.tenor_days ∧ ll.market_id = long.market_id ∧
        ll.tenor_days = long.tenor_days) ∧
      (∀ m ∈ selectedMarkets defaultTSConfig [marketShortA, marketLongA]
          quotesA snapsA,
        short.tenor_days ≤ m.tenor_days ∧ m.tenor_days ≤ long.tenor_days) :=
  claim_leg_selection defaultTSConfig 1000 "ev1" "ev1"
    [marketShortA, marketLongA] quotesA snapsA none oppA evaluateA

theorem ctxA_enabled : ctxA.enabled = true := rfl

theorem ctxA_provider : ctxA.provider_enabled = true := rfl

theorem ctxA_ts_config : ctxA.ts_config = defaultTSConfig := rfl

theorem ctxA_risk_config : ctxA.risk_config = defaultRiskConfig := rfl

theorem ctxA_get_markets (kws : List String) (mv : ℚ) (n : Nat) :
    ctxA.get_markets_for_arb kws mv n
      = .ok [("ev1", [marketShortA, marketLongA])] := rfl

theorem ctxA_get_quotes_batch (ms : List PolymarketMarket) :
    ctxA.get_quotes_batch ms = .ok quotesA := rfl

theorem stA_snapshots : stA.snapshots = snapsA := rfl

theorem stA_last_alert : stA.last_alert = [] := rfl

theorem stA_opportunities : stA.opportunities = [] := rfl

theorem quotesA_length : quotesA.length = 2 := rfl

theorem oppA_event_id : oppA.event_id = "ev1" := rfl

theorem oppA_status : oppA.status = "CANDIDATE" := rfl

theorem dictGet_snapsA_short : dictGet "m-short" snapsA = some snapShortA := rfl

theorem dictGet_snapsA_long : dictGet "m-long" snapsA = some snapLongA := rfl

theorem marketShortA_id : marketShortA.market_id = "m-short" := rfl

theorem marketLongA_id : marketLongA.market_id = "m-long" := rfl

theorem evaluateAlit :
    TermStructureStrategy.evaluate defaultTSConfig 1000 "ev1" "ev1"
      [marketShortA, marketLongA] quotesA
      [("m-short", snapShortA), ("m-long", snapLongA)] none = some oppA :=
  evaluateA

theorem scan_marketsA :
    ArbEngine.scan_markets ctxA none
      = .ok [("ev1", [marketShortA, marketLongA])] := by
  simp [ArbEngine.scan_markets, ctxA_enabled, ctxA_provider, ctxA_get_markets]

theorem create_snapshotsA :
    ArbEngine.create_snapshots ctxA.get_quote 1000 [marketShortA, marketLongA]
      "manual" snapsA = (snapsA, .ok snapsA) := by
  simp +decide [ArbEngine.create_snapshots, ArbEngine.create_snapshots_go,
    dictGet, dictSet, snapsA, marketShortA, marketLongA]

theorem detectA :
    ArbEngine.detect_opportunities ctxA 1000
      [("ev1", [marketShortA, marketLongA])] none stA = (stA, .ok [oppA]) := by
  simp +decide [ArbEngine.detect_opportunities, ArbEngine.detect_opportunities_go,
    ctxA_enabled, ctxA_ts_config, ctxA_get_quotes_batch, stA, create_snapshotsA,
    quotesA_length, dictGet_snapsA_short, dictGet_snapsA_long, marketShortA_id,
    marketLongA_id, evaluateAlit]

theorem filterAlit :
    RiskManager.filter defaultRiskConfig 1000 [] oppA quotesA
      (some [("m-short", marketShortA), ("m-long", marketLongA)])
      = (oppA, [("ev1", 1000)]) := by
  norm_num +decide [RiskManager.filter, legFlags, legHard, dictGet, dictSet,
    oppA, legShortA, legLongA, quotesA, quoteShortA, quoteLongA, marketShortA,
    marketLongA, defaultRiskConfig]

theorem filter_oppsA :
    ArbEngine.filter_opportunities ctxA 1000 [oppA]
      [("ev1", [marketShortA, marketLongA])] stA
      = (stFinalA, .ok [oppAConfirmed]) := by
  simp +decide [ArbEngine.filter_opportunities, ArbEngine.filter_opportunities_go,
    ctxA_risk_config, ctxA_get_quotes_batch, stA, dictGet, dictSet, oppA_event_id,
    oppA_status, marketShortA_id, marketLongA_id, filterAlit, stFinalA,
    oppAConfirmed]

theorem run_scanA :
    ArbEngine.run_scan ctxA 1000 none none stA
      = (stFinalA, .ok [oppAConfirmed]) := by
  simp [ArbEngine.run_scan, ctxA_enabled, scan_marketsA, detectA, filter_oppsA]

theorem pipeline_bodyA :
    ArbEngine.run_full_pipeline_body ctxA 1000 false "general" stA
      = (stFinalA, .ok (0, 0, [oppAConfirmed])) := by
  simp [ArbEngine.run_full_pipeline_body, run_scanA]

theorem pipelineA :
    ArbEngine.run_full_pipeline ctxA 1000 false "general" stA
      = (stFinalA, resultA) := by
  simp [ArbEngine.run_full_pipeline, ctxA_enabled, pipeline_bodyA, resultA]

/-- C8: the pipeline entry always returns a stats record: a disabled
engine short-circuits with a single error entry rather than raising, and
whenever the pipeline body (where every collaborator exception surfaces)
raises an exception, its message is captured in the returned `errors`
list; a completing body leaves `errors` empty. -/
theorem claim_pipeline_exception_containment (ctx : EngineCtx) (now : ℚ)
    (use_finnhub : Bool) (finnhub_category : String) (st : EngineState) :
    (ctx.enabled = false →
      (ArbEngine.run_full_pipeline ctx now use_finnhub finnhub_category st).2.errors
        = ["Arbitrage engine is disabled"]) ∧
    (ctx.enabled = true →
      (∀ st' e,
        ArbEngine.run_full_pipeline_body ctx now use_finnhub finnhub_category st
          = (st', Except.error e) →
        (ArbEngine.run_full_pipeline ctx now use_finnhub finnhub_category st).2.errors
          = [e]) ∧
      (∀ st' x,
        ArbEngine.run_full_pipeline_body ctx now use_finnhub finnhub_category st
          = (st', Except.ok x) →
        (ArbEngine.run_full_pipeline ctx now use_finnhub finnhub_category st).2.errors
          = [])) := by
  refine ⟨?_, ?_⟩
  · intro hdis
    simp [ArbEngine.run_full_pipeline, hdis]
  · intro hen
    constructor
    · intro st' e hbody
      simp [ArbEngine.run_full_pipeline, hen, hbody]
    · intro st' x hbody
      obtain ⟨ns, nt, opps⟩ := x
      simp [ArbEngine.run_full_pipeline, hen, hbody]

/-- Witness for C8: with the engine disabled in the configuration, the
pipeline returns the single disabled-engine error entry; and on the
scenario A run, whose body completes, the errors list is empty. -/
theorem claim_pipeline_exception_containment_witness :
    (ArbEngine.run_full_pipeline ctxDisabled 1000 false "general" stA).2.errors
      = ["Arbitrage engine is disabled"] ∧
    (ArbEngine.run_full_pipeline ctxA 1000 false "general" stA).2.errors = [] :=
  ⟨(claim_pipeline_exception_containment ctxDisabled 1000 false "general" stA).1 rfl,
   ((claim_pipeline_exception_containment ctxA 1000 false "general" stA).2 rfl).2
     stFinalA (0, 0, [oppAConfirmed]) pipeline_bodyA⟩

/-- C9 counterexample: in scenario A the scan finds one event and the
detection stage produces one raw opportunity (which is even confirmed),
yet the stats dict returned by the same pipeline run reports
`opportunities_raw = 0` and `events_found = 0`. -/
theorem claim_pipeline_stats_counterexample :
    (ArbEngine.run_full_pipeline ctxA 1000 false "general" stA).2.opportunities_raw
      = 0 ∧
    (ArbEngine.run_full_pipeline ctxA 1000 false "general" stA).2.events_found = 0 ∧
    (ArbEngine.run_full_pipeline ctxA 1000 false "general" stA).2.opportunities_confirmed
      = 1 ∧
    ArbEngine.scan_markets ctxA none
      = .ok [("ev1", [marketShortA, marketLongA])] ∧
    (ArbEngine.detect_opportunities ctxA 1000
      [("ev1", [marketShortA, marketLongA])] none stA).2 = .ok [oppA] := by
  refine ⟨?_, ?_, ?_, scan_marketsA, by rw [detectA]⟩ <;>
    rw [pipelineA] <;> rfl

/-- C9 (amended): the stats dict of `run_full_pipeline` always reports
`opportunities_raw = 0` and `events_found = 0` — the two keys are
initialised but never written — while `timestamp`, `enabled` and, on an
enabled run whose body completes, `news_scanned`, `news_triggered`,
`opportunities_confirmed` and `opportunities` do record the run. -/
theorem claim_pipeline_stats_amended (ctx : EngineCtx) (now : ℚ)
    (use_finnhub : Bool) (finnhub_category : String) (st : EngineState) :
    (ArbEngine.run_full_pipeline ctx now use_finnhub finnhub_category st).2.opportunities_raw
      = 0 ∧
    (ArbEngine.run_full_pipeline ctx now use_finnhub finnhub_category st).2.events_found
      = 0 ∧
    (ArbEngine.run_full_pipeline ctx now use_finnhub finnhub_category st).2.timestamp
      = now ∧
    (ArbEngine.run_full_pipeline ctx now use_finnhub finnhub_category st).2.enabled
      = ctx.enabled ∧
    (ctx.enabled = true →
      ∀ st' ns nt opps,
        ArbEngine.run_full_pipeline_body ctx now use_finnhub finnhub_category st
          = (st', Except.ok (ns, nt, opps)) →
        (ArbEngine.run_full_pipeline ctx now use_finnhub finnhub_category st).2.news_scanned
          = ns ∧
        (ArbEngine.run_full_pipeline ctx now use_finnhub finnhub_category st).2.news_triggered
          = nt ∧
        (ArbEngine.run_full_pipeline ctx now use_finnhub finnhub_category
          st).2.opportunities_confirmed = opps.length ∧
        (ArbEngine.run_full_pipeline ctx now use_finnhub finnhub_category st).2.opportunities
          = opps) := by
  by_cases hen : ctx.enabled = true
  · refine ⟨?_, ?_, ?_, ?_, ?_⟩ <;>
      [skip; skip; skip; skip;
       (intro _ st' ns nt opps hbody
        refine ⟨?_, ?_, ?_, ?_⟩ <;> simp [ArbEngine.run_full_pipeline, hen, hbody])] <;>
      (rcases hbody : ArbEngine.run_full_pipeline_body ctx now use_finnhub
          finnhub_category st with ⟨st', r⟩
       cases r <;> simp [ArbEngine.run_full_pipeline, hen, hbody])
  · have hdis : ctx.enabled = false := by
      cases h : ctx.enabled
      · rfl
      · exact absurd h hen
    refine ⟨?_, ?_, ?_, ?_, fun h => absurd h hen⟩ <;>
      simp [ArbEngine.run_full_pipeline, hdis]

/-- Witness for C9 (amended): on the scenario A run the stats dict has
opportunities_raw and events_found still 0 while the confirmed count and
list record the single confirmed opportunity. -/
theorem claim_pipeline_stats_amended_witness :
    (ArbEngine.run_full_pipeline ctxA 1000 false "general" stA).2.opportunities_raw
      = 0 ∧
    (ArbEngine.run_full_pipeline ctxA 1000 false "general" stA).2.events_found = 0 ∧
    (ArbEngine.run_full_pipeline ctxA 1000 false "general"
      stA).2.opportunities_confirmed = [oppAConfirmed].length ∧
    (ArbEngine.run_full_pipeline ctxA 1000 false "general" stA).2.opportunities
      = [oppAConfirmed] := by
  obtain ⟨h1, h2, -, -, h5⟩ :=
    claim_pipeline_stats_amended ctxA 1000 false "general" stA
  obtain ⟨h6, h7, h8, h9⟩ := h5 rfl stFinalA 0 0 [oppAConfirmed] pipeline_bodyA
  exact ⟨h1, h2, h8, h9⟩

/-- Witness for C1: a second snapshot-creation call in scenario A, at a
later time and with a different news id, returns the existing short-leg
snapshot with its original p0 unchanged. -/
theorem claim_snapshot_idempotence_witness :
    dictGet "m-short" (ArbEngine.create_snapshots ctxA.get_quote 2000
      [marketShortA, marketLongA] "news42" stA.snapshots).1 = some snapShortA ∧
    (dictGet "m-short" (ArbEngine.create_snapshots ctxA.get_quote 2000
      [marketShortA, marketLongA] "news42" stA.snapshots).1).map
      ArbSnapshot.p0 = some snapShortA.p0 ∧
    (∀ out, (ArbEngine.create_snapshots ctxA.get_quote 2000
        [marketShortA, marketLongA] "news42" stA.snapshots).2 = .ok out →
      "m-short" ∈ [marketShortA, marketLongA].map PolymarketMarket.market_id →
      dictGet "m-short" out = some snapShortA) :=
  claim_snapshot_idempotence ctxA.get_quote 2000 [marketShortA, marketLongA]
    "news42" stA.snapshots "m-short" snapShortA
    (by simp [stA, snapsA, dictGet])

end Fingent
